import Mathlib

/-!
Verification of the realtime session orchestration layer of the Askie
child-facing conversational assistant.

The embedding below is a shallow model of `src/App.tsx` (the `ChatView`
component and its helpers) together with the shared types of
`src/unnamed/part_000` (`ConversationStatus`, `Message`).

Modelling conventions:
* The React `useState`/`useRef` cells of `ChatView` become fields of
  `ChatState`; each branch of the `session.connect` `onmessage` callback
  becomes a pure transition function on `ChatState`.  The wall-clock value
  `Date.now()` is passed explicitly as a `now : Nat` argument wherever the
  code reads it.
* The playback scheduler (the `modelTurn` audio branch plus the
  `interrupted` branch) is modelled separately as `SchedState` with a small
  step language `SchedStep`, because the `await decodeAudioData` in the
  middle of the branch splits it into two atomic blocks on the JS event
  loop: the synchronous prefix that runs at message arrival
  (`nextAudioStartTimeRef.current = Math.max(nextAudioStartTimeRef.current,
  audioContext.currentTime)`, App.tsx:629) and the continuation that runs
  when the decode completes (`source.start(nextAudioStartTimeRef.current);
  nextAudioStartTimeRef.current += audioBuffer.duration;
  audioSourcesRef.current.add(source)`, App.tsx:636-638).  Audio-clock
  times and durations are integers (clock ticks); only the ordered-field
  structure of time is used by the code.
* Fallible external operations (the image-generation request inside
  `generateImageForResponse`, `AudioContext.close`) are modelled with
  `Except`; the `catch`/guard structure of the source is reproduced.
-/

/-- `ConversationStatus` from src/unnamed/part_000. -/
inductive ConversationStatus where
  | IDLE
  | LISTENING
  | PROCESSING
  | THINKING
  | SPEAKING
  | ERROR
deriving DecidableEq

/-- The `speaker` field of `Message` (`'user' | 'ai'`). -/
inductive Speaker where
  | user
  | ai
deriving DecidableEq

/-- The `feedback` values `'up' | 'down'`; `none` models `null`/`undefined`. -/
inductive Feedback where
  | up
  | down
deriving DecidableEq

/-- `Message` from src/unnamed/part_000.  `isGeneratingImage?: boolean` is a
`Bool` (JS `undefined` and `false` behave identically in every use site). -/
structure Message where
  id : Nat
  speaker : Speaker
  text : String
  imageUrl : Option String := none
  isGeneratingImage : Bool := false
  feedback : Option Feedback := none
deriving DecidableEq

/-- The mutable session state of `ChatView` (App.tsx:435-455) relevant to the
transcript and status: `status`, `conversation`, `userInputRef`,
`aiResponseRef`, and the pending debounce deadline held by
`speechEndTimeoutRef` (`some d` means a timeout armed to fire at time `d`). -/
structure ChatState where
  status : ConversationStatus
  conversation : List Message
  userInput : String
  aiResponse : String
  timer : Option Nat
deriving DecidableEq

/-- Initial component state (`useState(ConversationStatus.IDLE)`,
`useState<Message[]>([])`, empty refs). -/
def initChatState : ChatState :=
  { status := ConversationStatus.IDLE
    conversation := []
    userInput := ""
    aiResponse := ""
    timer := none }

/-- Concatenation of a list of transcript fragments in arrival order. -/
def concatAll : List String → String
  | [] => ""
  | a :: rest => a ++ concatAll rest

/-- The `setConversation` updater shared by the `inputTranscription` and
`outputTranscription` branches (App.tsx:600-604 and 610-614): if the most
recent message has the same speaker, replace its text with the running
buffer, otherwise append a new message with id `Date.now()`. -/
def appendOrReplaceLast (conv : List Message) (sp : Speaker) (buf : String)
    (now : Nat) : List Message :=
  match conv.getLast? with
  | some last =>
      if last.speaker = sp then
        conv.dropLast ++ [{ last with text := buf }]
      else
        conv ++ [{ id := now, speaker := sp, text := buf }]
  | none => conv ++ [{ id := now, speaker := sp, text := buf }]

/-- The `serverContent.inputTranscription` branch (App.tsx:591-605): clear any
pending debounce timeout and arm a new one 1200 ms out, extend the user
buffer, and update the transcript. -/
def handleInputTranscription (now : Nat) (frag : String) (s : ChatState) :
    ChatState :=
  let buf := s.userInput ++ frag
  { s with
      timer := some (now + 1200)
      userInput := buf
      conversation := appendOrReplaceLast s.conversation Speaker.user buf now }

/-- The `serverContent.outputTranscription` branch (App.tsx:606-615): clear
the pending debounce timeout, set status to SPEAKING, extend the assistant
buffer, and update the transcript. -/
def handleOutputTranscription (now : Nat) (frag : String) (s : ChatState) :
    ChatState :=
  let buf := s.aiResponse ++ frag
  { s with
      timer := none
      status := ConversationStatus.SPEAKING
      aiResponse := buf
      conversation := appendOrReplaceLast s.conversation Speaker.ai buf now }

/-- The `serverContent.turnComplete` branch (App.tsx:616-621): clear the
debounce timeout, reset both transcript buffers, and set status to LISTENING
unless the current status is ERROR. -/
def handleTurnComplete (s : ChatState) : ChatState :=
  { s with
      timer := none
      userInput := ""
      aiResponse := ""
      status :=
        if s.status = ConversationStatus.ERROR then s.status
        else ConversationStatus.LISTENING }

/-- The debounce timeout callback (App.tsx:593-597): when it fires it moves
LISTENING to THINKING and otherwise leaves the status alone (the callback
re-reads `statusRef.current` at fire time). -/
def fireTimer (s : ChatState) : ChatState :=
  { s with
      timer := none
      status :=
        if s.status = ConversationStatus.LISTENING then
          ConversationStatus.THINKING
        else s.status }

/-- `style || 'cartoon'` (App.tsx:580): JS `||` falls through on `undefined`
and on the empty string. -/
def styleOrDefault : Option String → String
  | none => "cartoon"
  | some st => if st = "" then "cartoon" else st

/-- The placeholder text of the image-generation message (App.tsx:580). -/
def toolCallText (prompt : String) (style : Option String) : String :=
  "Ok, drawing a " ++ styleOrDefault style ++ " of: \"" ++ prompt ++ "\""

/-- The `message.toolCall` branch for a `generateImage` call (App.tsx:573-588):
synchronously append a placeholder message with `isGeneratingImage: true`
and id `Date.now()`.  The asynchronous resolution is `resolveImage`. -/
def handleToolCall (now : Nat) (prompt : String) (style : Option String)
    (s : ChatState) : ChatState :=
  { s with
      conversation := s.conversation ++
        [{ id := now
           speaker := Speaker.ai
           text := toolCallText prompt style
           imageUrl := none
           isGeneratingImage := true
           feedback := none }] }

/-- The `.then(imageUrl => setConversation(...))` continuation of the tool
call (App.tsx:582-584): for every message whose id matches the placeholder id,
set `imageUrl` (`imageUrl ?? undefined`) and clear the generating flag;
leave every other message untouched. -/
def resolveImage (mid : Nat) (url : Option String) (s : ChatState) :
    ChatState :=
  { s with
      conversation := s.conversation.map fun msg =>
        if msg.id = mid then
          { msg with imageUrl := url, isGeneratingImage := false }
        else msg }

/-- The `reader.onloadend` continuation of `handleFileChange`
(App.tsx:694-698): append a user message carrying the uploaded image. -/
def handleImageUpload (now : Nat) (dataUrl : String) (s : ChatState) :
    ChatState :=
  { s with
      conversation := s.conversation ++
        [{ id := now
           speaker := Speaker.user
           text := "Here's a picture."
           imageUrl := some dataUrl
           isGeneratingImage := false
           feedback := none }] }

/-- The `setConversation` updater of `handleFeedback` (App.tsx:484-490):
toggle feedback on the message with the given id. -/
def applyFeedback (mid : Nat) (f : Feedback) (conv : List Message) :
    List Message :=
  conv.map fun msg =>
    if msg.id = mid then
      { msg with
          feedback := if msg.feedback = some f then none else some f }
    else msg

/-- `handleFeedback` (App.tsx:484-490) lifted to the session state. -/
def handleFeedback (mid : Nat) (f : Feedback) (s : ChatState) : ChatState :=
  { s with conversation := applyFeedback mid f s.conversation }

/-- `generateImageForResponse` (App.tsx:21-41).  The remote request is an
`outcome : Except String (List (Option (String × String)))`: a thrown
error, or the list of response parts, each optionally carrying
`inlineData = (mimeType, data)`.  An empty `prompt` is JS-falsy and returns
`null` immediately; a thrown error is caught and resolves to `null`; the
first part with inline data yields a data URI; otherwise `null`. -/
def generateImageForResponse (prompt : String)
    (outcome : Except String (List (Option (String × String)))) :
    Option String :=
  if prompt = "" then none
  else
    match outcome with
    | Except.error _ => none
    | Except.ok parts =>
        match parts.findSome? (fun p => p) with
        | some (mime, data) => some ("data:" ++ mime ++ ";base64," ++ data)
        | none => none

/-- The inbound events dispatched by the `onmessage` callback (plus the
debounce firing, the image upload, and the opening greeting of the
assistant-initiated effect), each tagged with the wall-clock time `now` at
which it is processed. -/
inductive ChatEvent where
  | inputFrag (text : String)
  | outputFrag (text : String)
  | turnComplete
  | timerFire
  | toolCall (prompt : String) (style : Option String)
  | imageResolved (mid : Nat) (url : Option String)
  | imageUpload (dataUrl : String)
  | greeting (text : String)
deriving DecidableEq

/-- Dispatch one event at wall-clock time `now`, exactly as the corresponding
branch of the source does.  `greeting` is the `setConversation([{ id:
Date.now(), speaker: 'ai', text: initialPrompt }])` of the assistant-initiated
effect (App.tsx:717-718), which also sets status to PROCESSING. -/
def chatStep (now : Nat) (e : ChatEvent) (s : ChatState) : ChatState :=
  match e with
  | ChatEvent.inputFrag t => handleInputTranscription now t s
  | ChatEvent.outputFrag t => handleOutputTranscription now t s
  | ChatEvent.turnComplete => handleTurnComplete s
  | ChatEvent.timerFire => fireTimer s
  | ChatEvent.toolCall p st => handleToolCall now p st s
  | ChatEvent.imageResolved mid url => resolveImage mid url s
  | ChatEvent.imageUpload u => handleImageUpload now u s
  | ChatEvent.greeting t =>
      { s with
          status := ConversationStatus.PROCESSING
          conversation := [{ id := now, speaker := Speaker.ai, text := t }] }

/-- Process a timestamped event sequence in arrival order (the transport
delivers inbound messages in order; all handlers run on the single-threaded
event loop). -/
def chatRun (s : ChatState) : List (Nat × ChatEvent) → ChatState
  | [] => s
  | (t, e) :: rest => chatRun (chatStep t e s) rest

/-- `Math.max` on the integer audio clock. -/
def mathMax (a b : ℤ) : ℤ := if a ≤ b then b else a

/-- One scheduling decision recorded by the playback model: chunk `idx` was
passed to `source.start` at time `start` and has duration `dur`. -/
structure SchedEntry where
  idx : Nat
  start : ℤ
  dur : ℤ
deriving DecidableEq

/-- Playback scheduler state: `cursor` is `nextAudioStartTimeRef.current`,
`sources` is the set `audioSourcesRef.current` (ids of active
`AudioBufferSourceNode`s), and `scheduled` is the history of `source.start`
calls in the order they were issued. -/
structure SchedState where
  cursor : ℤ
  scheduled : List SchedEntry
  sources : List Nat
deriving DecidableEq

/-- Scheduler state at session start (`nextAudioStartTimeRef = useRef(0)`). -/
def initSched : SchedState := { cursor := 0, scheduled := [], sources := [] }

/-- Atomic blocks of the playback code on the JS event loop:
* `arrive clockNow` — the synchronous prefix of the `modelTurn` audio branch,
  run when the chunk's message arrives (App.tsx:629):
  `nextAudioStartTimeRef.current = Math.max(nextAudioStartTimeRef.current,
  audioContext.currentTime)`;
* `complete idx dur` — the continuation after `await decodeAudioData`
  resolves for chunk `idx` (App.tsx:632-638): start the source at the
  current cursor, advance the cursor by the chunk's duration, add the source
  to the active set;
* `ended idx` — the `source.onended` callback (App.tsx:635);
* `interrupted` — the `serverContent.interrupted` branch (App.tsx:643-647):
  stop every active source, clear the set, reset the cursor to 0. -/
inductive SchedStep where
  | arrive (clockNow : ℤ)
  | complete (idx : Nat) (dur : ℤ)
  | ended (idx : Nat)
  | interrupted
deriving DecidableEq

/-- Effect of one atomic block on the scheduler state. -/
def schedStep (s : SchedState) : SchedStep → SchedState
  | SchedStep.arrive clockNow =>
      { s with cursor := mathMax s.cursor clockNow }
  | SchedStep.complete idx dur =>
      { cursor := s.cursor + dur
        scheduled := s.scheduled ++ [{ idx := idx, start := s.cursor, dur := dur }]
        sources := s.sources ++ [idx] }
  | SchedStep.ended idx =>
      { s with sources := s.sources.filter (fun j => j ≠ idx) }
  | SchedStep.interrupted =>
      { s with sources := [], cursor := 0 }

/-- Run a sequence of atomic blocks (one interleaving of the event loop). -/
def schedRun (s : SchedState) : List SchedStep → SchedState
  | [] => s
  | st :: rest => schedRun (schedStep s st) rest

/-- The start time `source.start` received for chunk `i`, if it was
scheduled. -/
def startOf (s : SchedState) (i : Nat) : Option ℤ :=
  (s.scheduled.find? (fun e => e.idx == i)).map SchedEntry.start

/-- The duration recorded for chunk `i`, if it was scheduled. -/
def durOf (s : SchedState) (i : Nat) : Option ℤ :=
  (s.scheduled.find? (fun e => e.idx == i)).map SchedEntry.dur

/-- The property claimed of a run with chunks `0, …, n-1` taken in ARRIVAL
order: consecutive chunks have non-decreasing start times and chunk `i+1`
starts no earlier than chunk `i`'s start plus chunk `i`'s duration. -/
def noOverlapInArrivalOrder (s : SchedState) (n : Nat) : Bool :=
  (List.range n).all fun i =>
    match startOf s i, durOf s i, startOf s (i + 1) with
    | some a, some d, some b => decide (a ≤ b) && decide (a + d ≤ b)
    | _, _, _ => true

/-- Non-overlap and monotonicity of the scheduling history in the order the
`source.start` calls were issued. -/
def entryChain (l : List SchedEntry) : Prop :=
  List.Chain' (fun a b => a.start + a.dur ≤ b.start ∧ a.start ≤ b.start) l

/-- Invariant of the scheduler: the history is chained, the cursor bounds the
end of the last scheduled chunk, and recorded durations are non-negative. -/
def schedInv (s : SchedState) : Prop :=
  entryChain s.scheduled ∧
  (∀ e, s.scheduled.getLast? = some e → e.start + e.dur ≤ s.cursor) ∧
  (∀ e ∈ s.scheduled, 0 ≤ e.dur)

/-- `AudioContext.state` as far as `cleanup` observes it. -/
inductive CtxState where
  | running
  | closed
deriving DecidableEq

/-- The resources torn down by `cleanup` (App.tsx:460-482): the pending
debounce timeout, `sessionRef`, `mediaStreamRef` (a list of track-live
flags), `scriptProcessorRef`, the two audio contexts, and the active
playback sources. -/
structure Resources where
  timerActive : Bool
  sessionOpen : Option Bool
  mediaTracks : Option (List Bool)
  procConnected : Option Bool
  inputCtx : Option CtxState
  outputCtx : Option CtxState
  sources : List Nat
deriving DecidableEq

/-- `AudioContext.close()`: closing an already-closed context fails
(the returned promise rejects with `InvalidStateError`). -/
def closeCtx : CtxState → Except String CtxState
  | CtxState.closed => Except.error "InvalidStateError"
  | CtxState.running => Except.ok CtxState.closed

/-- The guarded close used by `cleanup`
(`if (ref.current && ref.current.state !== 'closed') ref.current.close()`,
App.tsx:474-479); note the ref itself is not nulled. -/
def closeCtxGuarded : Option CtxState → Except String (Option CtxState)
  | some c =>
      if c = CtxState.closed then Except.ok (some c)
      else do
        let c' ← closeCtx c
        Except.ok (some c')
  | none => Except.ok none

/-- The audio-context ref after a successful `cleanup`. -/
def ctxAfter : Option CtxState → Option CtxState
  | none => none
  | some _ => some CtxState.closed

/-- `cleanup` (App.tsx:460-482): clear the debounce timeout, close the
session and null its ref, stop all tracks and null the stream ref
(`MediaStreamTrack.stop()` is idempotent and never throws), disconnect the
processor and null its ref, close each audio context that is not already
closed, stop every active source (each was started before being added to the
set, so `stop()` cannot throw) and clear the set. -/
def cleanup (r : Resources) : Except String Resources := do
  let inCtx ← closeCtxGuarded r.inputCtx
  let outCtx ← closeCtxGuarded r.outputCtx
  Except.ok
    { timerActive := false
      sessionOpen := none
      mediaTracks := none
      procConnected := none
      inputCtx := inCtx
      outputCtx := outCtx
      sources := [] }

/-- All resources released: refs nulled, contexts closed (or never created),
no pending timeout, no active playback sources. -/
def released (r : Resources) : Prop :=
  r.timerActive = false ∧
  r.sessionOpen = none ∧
  r.mediaTracks = none ∧
  r.procConnected = none ∧
  (r.inputCtx = none ∨ r.inputCtx = some CtxState.closed) ∧
  (r.outputCtx = none ∨ r.outputCtx = some CtxState.closed) ∧
  r.sources = []

/-- `stopConversation` (App.tsx:675-678): run `cleanup`, then set the status
to IDLE; it reads nothing from the current status, so it behaves the same
when invoked from an error path. -/
def stopConversation (r : Resources) :
    Except String (ConversationStatus × Resources) := do
  let r' ← cleanup r
  Except.ok (ConversationStatus.IDLE, r')

/-- Observable outcome of the assistant-initiated `initiate` routine. -/
inductive InitOutcome where
  | errorState
  | captureStart
  | playThenCaptureOnEnd
deriving DecidableEq

/-- The assistant-initiated effect (App.tsx:713-764).  `hasApiKey` models
`process.env.API_KEY`; `synth` is the TTS request: `Except.error e` when
`ai.models.generateContent` throws (caught at App.tsx:755-761, which sets
the ERROR status), `Except.ok none` when it resolves without audio data
(App.tsx:751-754, which awaits `startListeningForUser()` directly), and
`Except.ok (some d)` when audio arrives (App.tsx:737-750, which plays it and
calls `startListeningForUser` from `source.onended`). -/
def initiate (hasApiKey : Bool) (synth : Except String (Option String)) :
    InitOutcome :=
  if hasApiKey = false then InitOutcome.errorState
  else
    match synth with
    | Except.error _ => InitOutcome.errorState
    | Except.ok none => InitOutcome.captureStart
    | Except.ok (some _) => InitOutcome.playThenCaptureOnEnd

/-! ## Helper lemmas -/

theorem appendOrReplaceLast_nil (sp : Speaker) (buf : String) (now : Nat) :
    appendOrReplaceLast [] sp buf now
      = [{ id := now, speaker := sp, text := buf }] := rfl

theorem appendOrReplaceLast_concat_same (c : List Message) (m : Message)
    (sp : Speaker) (hm : m.speaker = sp) (buf : String) (now : Nat) :
    appendOrReplaceLast (c ++ [m]) sp buf now = c ++ [{ m with text := buf }] := by
  unfold appendOrReplaceLast
  rw [List.getLast?_concat]
  simp [hm, List.dropLast_concat]

theorem appendOrReplaceLast_concat_other (c : List Message) (m : Message)
    (sp : Speaker) (hm : ¬ m.speaker = sp) (buf : String) (now : Nat) :
    appendOrReplaceLast (c ++ [m]) sp buf now
      = (c ++ [m]) ++ [{ id := now, speaker := sp, text := buf }] := by
  unfold appendOrReplaceLast
  rw [List.getLast?_concat]
  simp [hm]

theorem mem_of_getLast?_eq {α : Type} {l : List α} {a : α}
    (h : l.getLast? = some a) : a ∈ l := by
  rcases List.eq_nil_or_concat' l with rfl | ⟨c, b, rfl⟩
  · simp at h
  · rw [List.getLast?_concat] at h
    obtain rfl : b = a := by simpa using h
    exact List.mem_append_right _ (List.mem_singleton_self _)

theorem chatRun_inputFrags_replace (frags : List (Nat × String)) :
    ∀ (c : List Message) (m : Message), m.speaker = Speaker.user →
    ∀ s : ChatState, s.conversation = c ++ [m] → s.userInput = m.text →
    (chatRun s (frags.map (fun p => (p.1, ChatEvent.inputFrag p.2)))).conversation
      = c ++ [{ m with text := m.text ++ concatAll (frags.map Prod.snd) }] ∧
    (chatRun s (frags.map (fun p => (p.1, ChatEvent.inputFrag p.2)))).userInput
      = m.text ++ concatAll (frags.map Prod.snd) := by
  induction frags with
  | nil =>
      intro c m hm s hconv hbuf
      constructor
      · simpa [chatRun, concatAll, String.append_empty] using hconv
      · simpa [chatRun, concatAll, String.append_empty] using hbuf
  | cons p rest ih =>
      intro c m hm s hconv hbuf
      obtain ⟨t, f⟩ := p
      have hstep : (chatStep t (ChatEvent.inputFrag f) s).conversation
          = c ++ [{ m with text := m.text ++ f }] := by
        simp [chatStep, handleInputTranscription, hconv, hbuf,
          appendOrReplaceLast_concat_same c m _ hm]
      have hstepbuf : (chatStep t (ChatEvent.inputFrag f) s).userInput
          = m.text ++ f := by
        simp [chatStep, handleInputTranscription, hbuf]
      have := ih c { m with text := m.text ++ f } hm
        (chatStep t (ChatEvent.inputFrag f) s) hstep hstepbuf
      simpa [chatRun, concatAll, String.append_assoc] using this

theorem chatStep_ids (t : Nat) (e : ChatEvent) (s : ChatState) :
    (chatStep t e s).conversation.map Message.id
        = s.conversation.map Message.id ∨
    (chatStep t e s).conversation.map Message.id
        = s.conversation.map Message.id ++ [t] ∨
    (chatStep t e s).conversation.map Message.id = [t] := by
  cases e with
  | inputFrag f =>
      rcases List.eq_nil_or_concat' s.conversation with h | ⟨c, m, h⟩
      · right; left
        simp [chatStep, handleInputTranscription, appendOrReplaceLast, h]
      · by_cases hm : m.speaker = Speaker.user
        · left
          simp [chatStep, handleInputTranscription, h,
            appendOrReplaceLast_concat_same c m _ hm]
        · right; left
          simp [chatStep, handleInputTranscription, h,
            appendOrReplaceLast_concat_other c m _ hm]
  | outputFrag f =>
      rcases List.eq_nil_or_concat' s.conversation with h | ⟨c, m, h⟩
      · right; left
        simp [chatStep, handleOutputTranscription, appendOrReplaceLast, h]
      · by_cases hm : m.speaker = Speaker.ai
        · left
          simp [chatStep, handleOutputTranscription, h,
            appendOrReplaceLast_concat_same c m _ hm]
        · right; left
          simp [chatStep, handleOutputTranscription, h,
            appendOrReplaceLast_concat_other c m _ hm]
  | turnComplete => left; simp [chatStep, handleTurnComplete]
  | timerFire => left; simp [chatStep, fireTimer]
  | toolCall p st => right; left; simp [chatStep, handleToolCall]
  | imageResolved mid url =>
      left
      simp only [chatStep, resolveImage, List.map_map]
      apply List.map_congr_left
      intro a _
      by_cases h : a.id = mid <;> simp [h]
  | imageUpload u => right; left; simp [chatStep, handleImageUpload]
  | greeting txt => right; right; simp [chatStep]

theorem chatRun_ids_nodup (evs : List (Nat × ChatEvent)) :
    ∀ (s : ChatState) (t0 : Nat),
    (s.conversation.map Message.id).Nodup →
    (∀ i ∈ s.conversation.map Message.id, i ≤ t0) →
    List.Chain (· < ·) t0 (evs.map Prod.fst) →
    ((chatRun s evs).conversation.map Message.id).Nodup := by
  induction evs with
  | nil =>
      intro s t0 h1 _ _
      simpa [chatRun] using h1
  | cons p rest ih =>
      intro s t0 h1 h2 hch
      obtain ⟨t, e⟩ := p
      rw [List.map_cons, List.chain_cons] at hch
      obtain ⟨hlt, hch'⟩ := hch
      show ((chatRun (chatStep t e s) rest).conversation.map Message.id).Nodup
      rcases chatStep_ids t e s with h | h | h
      · exact ih (chatStep t e s) t (by rw [h]; exact h1)
          (fun i hi => le_of_lt (lt_of_le_of_lt (h2 i (h ▸ hi)) hlt)) hch'
      · refine ih (chatStep t e s) t ?_ ?_ hch'
        · rw [h]
          refine List.Nodup.append h1 (List.nodup_singleton t) ?_
          intro a ha hb
          rw [List.mem_singleton] at hb
          subst hb
          exact absurd (h2 a ha) (not_le.mpr hlt)
        · rw [h]
          intro i hi
          rcases List.mem_append.mp hi with hi | hi
          · exact le_of_lt (lt_of_le_of_lt (h2 i hi) hlt)
          · rw [List.mem_singleton] at hi
            omega
      · refine ih (chatStep t e s) t ?_ ?_ hch'
        · rw [h]; exact List.nodup_singleton t
        · rw [h]
          intro i hi
          rw [List.mem_singleton] at hi
          omega

theorem le_mathMax_left (a b : ℤ) : a ≤ mathMax a b := by
  unfold mathMax
  split
  · assumption
  · exact le_refl a

theorem mathMax_of_le {a b : ℤ} (h : a ≤ b) : mathMax a b = b := if_pos h

theorem schedStep_inv (s : SchedState) (st : SchedStep)
    (hst : ∀ i d, st = SchedStep.complete i d → 0 ≤ d)
    (hni : st ≠ SchedStep.interrupted)
    (h : schedInv s) : schedInv (schedStep s st) := by
  obtain ⟨h1, h2, h3⟩ := h
  cases st with
  | arrive clockNow =>
      refine ⟨h1, ?_, h3⟩
      intro e he
      exact le_trans (h2 e he) (le_mathMax_left _ _)
  | complete i d =>
      have hd : 0 ≤ d := hst i d rfl
      refine ⟨?_, ?_, ?_⟩
      · rw [entryChain, schedStep, List.chain'_append]
        refine ⟨h1, List.chain'_singleton _, ?_⟩
        intro x hx y hy
        rw [List.head?_cons, Option.mem_some_iff] at hy
        subst hy
        have hx' : s.scheduled.getLast? = some x := hx
        have hxd : 0 ≤ x.dur := h3 x (mem_of_getLast?_eq hx')
        exact ⟨h2 x hx', le_trans (by linarith) (h2 x hx')⟩
      · intro e he
        rw [schedStep, List.getLast?_concat, Option.some_inj] at he
        subst he
        simp [schedStep]
      · intro e he
        rw [schedStep] at he
        rcases List.mem_append.mp he with he | he
        · exact h3 e he
        · rw [List.mem_singleton] at he
          subst he
          exact hd
  | ended i => exact ⟨h1, h2, h3⟩
  | interrupted => exact absurd rfl hni

theorem schedRun_inv (steps : List SchedStep) :
    ∀ s : SchedState, schedInv s →
    (∀ i d, SchedStep.complete i d ∈ steps → 0 ≤ d) →
    SchedStep.interrupted ∉ steps →
    schedInv (schedRun s steps) := by
  induction steps with
  | nil => intro s h _ _; simpa [schedRun] using h
  | cons st rest ih =>
      intro s h hd hi
      refine ih (schedStep s st) ?_ ?_ ?_
      · refine schedStep_inv s st ?_ ?_ h
        · intro i d he
          exact hd i d (he ▸ List.mem_cons_self st rest)
        · intro he
          exact hi (he ▸ List.mem_cons_self st rest)
      · intro i d he
        exact hd i d (List.mem_cons_of_mem _ he)
      · intro he
        exact hi (List.mem_cons_of_mem _ he)

theorem closeCtxGuarded_ok (c : Option CtxState) :
    closeCtxGuarded c = Except.ok (ctxAfter c) := by
  rcases c with _ | c
  · rfl
  · cases c <;> rfl

theorem ctxAfter_idem (c : Option CtxState) :
    ctxAfter (ctxAfter c) = ctxAfter c := by
  rcases c with _ | c <;> rfl

theorem cleanup_ok (r : Resources) :
    cleanup r = Except.ok
      { timerActive := false
        sessionOpen := none
        mediaTracks := none
        procConnected := none
        inputCtx := ctxAfter r.inputCtx
        outputCtx := ctxAfter r.outputCtx
        sources := [] } := by
  rw [cleanup, closeCtxGuarded_ok, closeCtxGuarded_ok]
  rfl

theorem map_update_of_no_match (mid : Nat) (upd : Message → Message)
    (l : List Message) (h : ∀ x ∈ l, ¬ x.id = mid) :
    (l.map fun msg => if msg.id = mid then upd msg else msg) = l := by
  induction l with
  | nil => rfl
  | cons a rest ih =>
      rw [List.map_cons, if_neg (h a (List.mem_cons_self a rest)),
        ih fun x hx => h x (List.mem_cons_of_mem _ hx)]

theorem map_update_split (mid : Nat) (upd : Message → Message)
    (pre post : List Message) (m : Message)
    (hpre : ∀ x ∈ pre, ¬ x.id = mid) (hpost : ∀ x ∈ post, ¬ x.id = mid)
    (hm : m.id = mid) :
    ((pre ++ m :: post).map fun msg => if msg.id = mid then upd msg else msg)
      = pre ++ upd m :: post := by
  rw [List.map_append, List.map_cons, if_pos hm,
    map_update_of_no_match mid upd pre hpre,
    map_update_of_no_match mid upd post hpost]

/-! ## Claim theorems -/

/-- C1 (amended): within one open turn (empty user buffer and no trailing
user message), a sequence of user fragments produces exactly one new user
Message whose text is the concatenation of the fragments in arrival order,
with every earlier message untouched.  However, after `turnComplete` only the
buffers reset: if the most recent Message is still the user's, the next user
fragment REPLACES that Message's text with the fresh buffer instead of
creating a new Message (second conjunct). -/
theorem C1_transcript_accumulation
    (s : ChatState) (t : Nat) (f : String) (rest : List (Nat × String))
    (hbuf : s.userInput = "")
    (hlast : ∀ m, s.conversation.getLast? = some m → ¬ m.speaker = Speaker.user) :
    ((chatRun s ((t, ChatEvent.inputFrag f) ::
        rest.map (fun p => (p.1, ChatEvent.inputFrag p.2)))).conversation
      = s.conversation ++
        [{ id := t, speaker := Speaker.user,
           text := f ++ concatAll (rest.map Prod.snd) }]) ∧
    (∀ (s' : ChatState) (c : List Message) (m : Message) (t' : Nat) (f' : String),
      s'.userInput = "" → s'.conversation = c ++ [m] → m.speaker = Speaker.user →
      (chatStep t' (ChatEvent.inputFrag f') s').conversation
        = c ++ [{ m with text := f' }]) := by
  constructor
  · have hstep : (chatStep t (ChatEvent.inputFrag f) s).conversation
        = s.conversation ++ [{ id := t, speaker := Speaker.user, text := f }] := by
      rcases h : s.conversation.getLast? with _ | m
      · simp [chatStep, handleInputTranscription, appendOrReplaceLast, h, hbuf,
          String.empty_append]
      · have hm := hlast m h
        simp [chatStep, handleInputTranscription, appendOrReplaceLast, h, hm, hbuf,
          String.empty_append]
    have hstepbuf : (chatStep t (ChatEvent.inputFrag f) s).userInput = f := by
      simp [chatStep, handleInputTranscription, hbuf, String.empty_append]
    have h2 := chatRun_inputFrags_replace rest s.conversation
      { id := t, speaker := Speaker.user, text := f } rfl
      (chatStep t (ChatEvent.inputFrag f) s) hstep hstepbuf
    exact h2.1
  · intro s' c m t' f' hb hc hm
    simp [chatStep, handleInputTranscription, hc, hb, String.empty_append,
      appendOrReplaceLast_concat_same c m _ hm]

/-- C1 counterexample, the spec's own scenario: user fragments "Hel",
"lo wor", "ld", then `turnComplete`, then user fragment "Hi".  The claim
requires the transcript to keep the finalized Message {user, "Hello world"}
and add a NEW Message {user, "Hi"}; the code instead REPLACES the finalized
Message, leaving a single Message whose text is "Hi". -/
theorem C1_counterexample :
    ((chatRun initChatState
        [(1, ChatEvent.inputFrag "Hel"), (2, ChatEvent.inputFrag "lo wor"),
         (3, ChatEvent.inputFrag "ld"), (4, ChatEvent.turnComplete),
         (5, ChatEvent.inputFrag "Hi")]).conversation.map
        (fun m => (m.speaker, m.text)))
      = [(Speaker.user, "Hi")] ∧
    ∀ m ∈ (chatRun initChatState
        [(1, ChatEvent.inputFrag "Hel"), (2, ChatEvent.inputFrag "lo wor"),
         (3, ChatEvent.inputFrag "ld"), (4, ChatEvent.turnComplete),
         (5, ChatEvent.inputFrag "Hi")]).conversation,
      ¬ m.text = "Hello world" := by
  decide

/-- C1 witness: three fragments in one open turn concatenate into a single
Message "Hello world". -/
theorem C1_witness :
    (chatRun initChatState
        ((1, ChatEvent.inputFrag "Hel") ::
          [(2, "lo wor"), (3, "ld")].map
            (fun p => (p.1, ChatEvent.inputFrag p.2)))).conversation
      = [{ id := 1, speaker := Speaker.user, text := "Hello world" }] := by
  have h := C1_transcript_accumulation initChatState 1 "Hel"
    [(2, "lo wor"), (3, "ld")] rfl
    (by intro m hm; simp [initChatState] at hm)
  exact h.1.trans (by decide)

/-- C3 (confirmed): the `interrupted` branch empties the active source set
and resets the playback cursor to 0; the next chunk processed afterwards is
scheduled at `max(0, clockNow) = clockNow` — the current audio-clock time —
independently of the pre-interrupt cursor value `s.cursor`. -/
theorem C3_interrupt_resets (s : SchedState) (clockNow d : ℤ) (i : Nat)
    (h : 0 ≤ clockNow) :
    (schedStep s SchedStep.interrupted).sources = [] ∧
    (schedStep s SchedStep.interrupted).cursor = 0 ∧
    (schedRun s [SchedStep.interrupted, SchedStep.arrive clockNow,
        SchedStep.complete i d]).scheduled
      = s.scheduled ++ [{ idx := i, start := clockNow, dur := d }] := by
  refine ⟨rfl, rfl, ?_⟩
  simp [schedRun, schedStep, mathMax_of_le h]

/-- C3 witness: with a pre-interrupt cursor of 7 and an active source, the
chunk after the interrupt starts exactly at the clock time 2. -/
theorem C3_witness :
    (schedRun { cursor := 7, scheduled := [], sources := [4] }
        [SchedStep.interrupted, SchedStep.arrive 2,
         SchedStep.complete 0 3]).scheduled
      = [{ idx := 0, start := 2, dur := 3 }] := by
  have h := C3_interrupt_resets { cursor := 7, scheduled := [], sources := [4] }
    2 3 0 (by decide)
  simpa using h.2.2

/-- C4 (confirmed): every user fragment arms the debounce deadline 1200 ms
after its arrival time (and a later fragment replaces — cancels — the
pending deadline); when the timeout fires in LISTENING the status becomes
THINKING, and when it fires in any other status the status is unchanged. -/
theorem C4_debounce (s s' : ChatState) (t t' : Nat) (f f' : String) :
    (handleInputTranscription t f s).timer = some (t + 1200) ∧
    (handleInputTranscription t' f' (handleInputTranscription t f s)).timer
      = some (t' + 1200) ∧
    (s'.status = ConversationStatus.LISTENING →
      (fireTimer s').status = ConversationStatus.THINKING) ∧
    (¬ s'.status = ConversationStatus.LISTENING →
      (fireTimer s').status = s'.status) := by
  refine ⟨rfl, rfl, ?_, ?_⟩
  · intro h
    simp [fireTimer, h]
  · intro h
    simp [fireTimer, h]

/-- C4 witness: a fragment at time 0 arms the deadline 1200; firing in
LISTENING yields THINKING; a second fragment at time 1100 (before the
deadline) re-arms the deadline to 2300; firing in SPEAKING changes nothing. -/
theorem C4_witness :
    (handleInputTranscription 0 "a" initChatState).timer = some 1200 ∧
    (handleInputTranscription 1100 "b"
        (handleInputTranscription 0 "a" initChatState)).timer = some 2300 ∧
    (fireTimer { initChatState with
        status := ConversationStatus.LISTENING }).status
      = ConversationStatus.THINKING ∧
    (fireTimer { initChatState with
        status := ConversationStatus.SPEAKING }).status
      = ConversationStatus.SPEAKING := by
  have h1 := C4_debounce initChatState
    { initChatState with status := ConversationStatus.LISTENING } 0 1100 "a" "b"
  have h2 := C4_debounce initChatState
    { initChatState with status := ConversationStatus.SPEAKING } 0 1100 "a" "b"
  exact ⟨h1.1, h1.2.1, h1.2.2.1 rfl, h2.2.2.2 (by decide)⟩

/-- C7 (confirmed): `turnComplete` resets both transcript buffers; it moves
every non-ERROR status to LISTENING and leaves the ERROR status unchanged. -/
theorem C7_turnComplete (s : ChatState) :
    (¬ s.status = ConversationStatus.ERROR →
      (handleTurnComplete s).status = ConversationStatus.LISTENING) ∧
    (s.status = ConversationStatus.ERROR →
      (handleTurnComplete s).status = s.status) ∧
    (handleTurnComplete s).userInput = "" ∧
    (handleTurnComplete s).aiResponse = "" := by
  refine ⟨?_, ?_, rfl, rfl⟩
  · intro h
    simp [handleTurnComplete, h]
  · intro h
    simp [handleTurnComplete, h]

/-- C7 witness: `turnComplete` in SPEAKING with nonempty buffers yields
LISTENING with both buffers empty; in ERROR the status stays ERROR. -/
theorem C7_witness :
    (handleTurnComplete { initChatState with
        status := ConversationStatus.SPEAKING
        userInput := "abc"
        aiResponse := "xyz" }).status = ConversationStatus.LISTENING ∧
    (handleTurnComplete { initChatState with
        status := ConversationStatus.SPEAKING
        userInput := "abc" }).userInput = "" ∧
    (handleTurnComplete { initChatState with
        status := ConversationStatus.ERROR }).status
      = ConversationStatus.ERROR := by
  have h1 := C7_turnComplete { initChatState with
    status := ConversationStatus.SPEAKING, userInput := "abc", aiResponse := "xyz" }
  have h2 := C7_turnComplete { initChatState with
    status := ConversationStatus.SPEAKING, userInput := "abc" }
  have h3 := C7_turnComplete { initChatState with
    status := ConversationStatus.ERROR }
  exact ⟨h1.1 (by decide), h2.2.2.1, h3.2.1 rfl⟩

/-- C8 counterexample: a synthesis request that THROWS (network failure) is a
failing synthesis outcome, yet the controller lands in the ERROR state, not
in the capture-start sequence — the conversation stays blocked until a
manual restart.  This refutes "for every failing synthesis outcome, the
controller proceeds directly to capture-start". -/
theorem C8_counterexample :
    initiate true (Except.error "network failure") = InitOutcome.errorState ∧
    ¬ initiate true (Except.error "network failure")
        = InitOutcome.captureStart := by
  decide

/-- C8 (amended): when the synthesis request resolves WITHOUT audio data the
controller skips directly to capture-start; when it resolves with audio the
controller plays it and enters capture-start only from the playback-completion
callback; when the request throws, the controller enters the ERROR state
instead (as it also does when the API key is missing). -/
theorem C8_synthesis_outcomes (e d : String) :
    initiate true (Except.ok none) = InitOutcome.captureStart ∧
    initiate true (Except.ok (some d)) = InitOutcome.playThenCaptureOnEnd ∧
    initiate true (Except.error e) = InitOutcome.errorState ∧
    initiate false (Except.ok none) = InitOutcome.errorState := by
  exact ⟨rfl, rfl, rfl, rfl⟩

/-- C2 counterexample: chunks 0 and 1 (duration 1 each) arrive in order at
clock time 0, but chunk 1's decode completes first.  The execution
`[arrive 0, arrive 0, complete 1 1, complete 0 1]` is a legal interleaving
of the event loop (each chunk's synchronous prefix precedes its decode
continuation, arrivals are in chunk order), yet chunk 0 is started at time 1
and chunk 1 at time 0: in arrival order the start times DECREASE and chunk 1
starts before chunk 0 ends, refuting the claimed invariant "regardless of
the order in which the asynchronous decodes complete". -/
theorem C2_counterexample :
    startOf (schedRun initSched
        [SchedStep.arrive 0, SchedStep.arrive 0,
         SchedStep.complete 1 1, SchedStep.complete 0 1]) 0 = some 1 ∧
    startOf (schedRun initSched
        [SchedStep.arrive 0, SchedStep.arrive 0,
         SchedStep.complete 1 1, SchedStep.complete 0 1]) 1 = some 0 ∧
    noOverlapInArrivalOrder (schedRun initSched
        [SchedStep.arrive 0, SchedStep.arrive 0,
         SchedStep.complete 1 1, SchedStep.complete 0 1]) 2 = false := by
  decide

/-- C2 (amended): in the order the `source.start` calls are issued (i.e. in
decode-COMPLETION order, since the cursor is read and advanced only in the
post-decode continuation), start times are non-decreasing and each chunk
starts no earlier than the previously scheduled chunk's start plus its
duration, for every interleaving without an interrupt and with non-negative
durations.  When decodes complete in arrival order this is the claimed
arrival-order property; out-of-order completion permutes playback instead. -/
theorem C2_schedule_order (steps : List SchedStep)
    (hd : ∀ i d, SchedStep.complete i d ∈ steps → 0 ≤ d)
    (hni : SchedStep.interrupted ∉ steps) :
    entryChain (schedRun initSched steps).scheduled := by
  have hinit : schedInv initSched := by
    refine ⟨?_, ?_, ?_⟩
    · simp [entryChain, initSched]
    · intro e he
      simp [initSched] at he
    · intro e he
      simp [initSched] at he
  exact (schedRun_inv steps initSched hinit hd hni).1

/-- C2 witness: a concrete interrupt-free run with chunks of durations 1 and
2 yields a chained (non-overlapping, monotone) schedule. -/
theorem C2_witness :
    entryChain (schedRun initSched
        [SchedStep.arrive 0, SchedStep.complete 0 1,
         SchedStep.complete 1 2]).scheduled := by
  refine C2_schedule_order _ ?_ (by decide)
  intro i d h
  simp [List.mem_cons] at h
  rcases h with ⟨rfl, rfl⟩ | ⟨rfl, rfl⟩ <;> decide

/-- C5 (confirmed): a `generateImage` tool call immediately appends a
placeholder Message with `isGeneratingImage = true` (leaving every existing
message and the status untouched); the asynchronous resolution updates, in
place, exactly the message carrying the placeholder id — every message with
a different id is unchanged — and never touches the session status; a
generation failure (a thrown request, or a response with no inline image)
resolves to `none` rather than propagating an exception. -/
theorem C5_toolcall_image (s : ChatState) (now : Nat) (prompt e : String)
    (style : Option String) (mid : Nat) (url : Option String)
    (pre post : List Message) (m : Message)
    (hpre : ∀ x ∈ pre, ¬ x.id = mid) (hpost : ∀ x ∈ post, ¬ x.id = mid)
    (hm : m.id = mid) :
    (handleToolCall now prompt style s).conversation
      = s.conversation ++
        [{ id := now, speaker := Speaker.ai, text := toolCallText prompt style,
           imageUrl := none, isGeneratingImage := true, feedback := none }] ∧
    (handleToolCall now prompt style s).status = s.status ∧
    (∀ s' : ChatState, s'.conversation = pre ++ m :: post →
      (resolveImage mid url s').conversation
        = pre ++ { m with imageUrl := url, isGeneratingImage := false } :: post) ∧
    (∀ s' : ChatState, (resolveImage mid url s').status = s'.status) ∧
    generateImageForResponse prompt (Except.error e) = none ∧
    generateImageForResponse prompt (Except.ok []) = none := by
  refine ⟨rfl, rfl, ?_, fun s' => rfl, ?_, ?_⟩
  · intro s' hc
    show (s'.conversation.map fun msg =>
        if msg.id = mid then { msg with imageUrl := url, isGeneratingImage := false }
        else msg) = _
    rw [hc]
    exact map_update_split mid _ pre post m hpre hpost hm
  · unfold generateImageForResponse
    split
    · rfl
    · rfl
  · unfold generateImageForResponse
    split
    · rfl
    · rfl

/-- C5 witness: resolving placeholder id 2 with a data URI updates exactly
that message and leaves the other message intact. -/
theorem C5_witness :
    (resolveImage 2 (some "data:img")
        { status := ConversationStatus.SPEAKING
          conversation :=
            [{ id := 1, speaker := Speaker.user, text := "hi" },
             { id := 2, speaker := Speaker.ai, text := "drawing",
               isGeneratingImage := true }]
          userInput := ""
          aiResponse := ""
          timer := none }).conversation
      = [{ id := 1, speaker := Speaker.user, text := "hi" },
         { id := 2, speaker := Speaker.ai, text := "drawing",
           imageUrl := some "data:img", isGeneratingImage := false }] := by
  have h := C5_toolcall_image initChatState 0 "cat" "err" none 2 (some "data:img")
    [{ id := 1, speaker := Speaker.user, text := "hi" }] []
    { id := 2, speaker := Speaker.ai, text := "drawing", isGeneratingImage := true }
    (by decide) (by decide) rfl
  exact h.2.2.1 _ rfl

/-- C9 counterexample: `Date.now()` is the id source; a tool call and a user
fragment processed in the same millisecond (time 5) create two distinct
Messages with the same id 5, refuting the unconditional uniqueness of ids. -/
theorem C9_counterexample :
    ¬ (((chatRun initChatState
        [(5, ChatEvent.toolCall "a cat" none),
         (5, ChatEvent.inputFrag "Hi")]).conversation.map
          Message.id).Nodup) := by
  decide

/-- C9 (amended): every Message's id is the wall-clock value at its creation,
so ids are unique provided the events of the session are processed at
strictly increasing clock times; under that proviso, any sequence of
fragments, tool calls, image resolutions, uploads, greetings, turn
completions and timer firings yields pairwise distinct Message ids. -/
theorem C9_unique_ids (evs : List (Nat × ChatEvent))
    (h : List.Chain' (· < ·) (evs.map Prod.fst)) :
    ((chatRun initChatState evs).conversation.map Message.id).Nodup := by
  cases evs with
  | nil => simp [chatRun, initChatState]
  | cons p rest =>
      obtain ⟨t, e⟩ := p
      have hch : List.Chain (· < ·) t (rest.map Prod.fst) := h
      show ((chatRun (chatStep t e initChatState) rest).conversation.map
        Message.id).Nodup
      rcases chatStep_ids t e initChatState with h0 | h0 | h0
      · refine chatRun_ids_nodup rest _ t ?_ ?_ hch
        · rw [h0]
          simp [initChatState]
        · rw [h0]
          intro i hi
          simp [initChatState] at hi
      · refine chatRun_ids_nodup rest _ t ?_ ?_ hch
        · rw [h0]
          simp [initChatState]
        · rw [h0]
          intro i hi
          simp [initChatState] at hi
          omega
      · refine chatRun_ids_nodup rest _ t ?_ ?_ hch
        · rw [h0]
          exact List.nodup_singleton t
        · rw [h0]
          intro i hi
          rw [List.mem_singleton] at hi
          omega

/-- C9 witness: the same two events at strictly increasing times 1 and 2
yield distinct ids. -/
theorem C9_witness :
    ((chatRun initChatState
        [(1, ChatEvent.toolCall "a cat" none),
         (2, ChatEvent.inputFrag "Hi")]).conversation.map
          Message.id).Nodup := by
  exact C9_unique_ids _ (List.Chain.cons (by omega) List.Chain.nil)

/-- C10 (confirmed): `handleFeedback(messageId, f)` updates only the Message
with the given id (every other message is unchanged, and the status is
untouched), following the toggle rule — if that Message's feedback already
equals `f` it is cleared to `none`, otherwise it becomes `f`; consequently,
applying the same feedback twice in succession from a state whose feedback
is not already `f` (in particular the no-feedback state) returns the Message
to the no-feedback state. -/
theorem C10_feedback_toggle (s : ChatState) (mid : Nat) (f : Feedback)
    (pre post : List Message) (m : Message)
    (hpre : ∀ x ∈ pre, ¬ x.id = mid) (hpost : ∀ x ∈ post, ¬ x.id = mid)
    (hm : m.id = mid) (hconv : s.conversation = pre ++ m :: post) :
    (handleFeedback mid f s).conversation
      = pre ++ { m with
          feedback := if m.feedback = some f then none else some f } :: post ∧
    (handleFeedback mid f s).status = s.status ∧
    (¬ m.feedback = some f →
      (handleFeedback mid f (handleFeedback mid f s)).conversation
        = pre ++ { m with feedback := none } :: post) := by
  have h1 : (handleFeedback mid f s).conversation
      = pre ++ { m with
          feedback := if m.feedback = some f then none else some f } :: post := by
    show applyFeedback mid f s.conversation = _
    rw [hconv]
    exact map_update_split mid _ pre post m hpre hpost hm
  refine ⟨h1, rfl, ?_⟩
  intro hne
  show applyFeedback mid f ((handleFeedback mid f s).conversation)
      = pre ++ { m with feedback := none } :: post
  rw [h1, if_neg hne]
  have h3 := map_update_split mid
    (fun msg => { msg with
        feedback := if msg.feedback = some f then none else some f })
    pre post { m with feedback := some f } hpre hpost hm
  simpa [applyFeedback] using h3

/-- C10 witness: thumbs-up twice on message 2 (starting with no feedback)
returns the transcript to its original state, message 1 untouched. -/
theorem C10_witness :
    (handleFeedback 2 Feedback.up (handleFeedback 2 Feedback.up
        { status := ConversationStatus.IDLE
          conversation :=
            [{ id := 1, speaker := Speaker.user, text := "q" },
             { id := 2, speaker := Speaker.ai, text := "a" }]
          userInput := ""
          aiResponse := ""
          timer := none })).conversation
      = [{ id := 1, speaker := Speaker.user, text := "q" },
         { id := 2, speaker := Speaker.ai, text := "a" }] := by
  have h := C10_feedback_toggle
    { status := ConversationStatus.IDLE
      conversation :=
        [{ id := 1, speaker := Speaker.user, text := "q" },
         { id := 2, speaker := Speaker.ai, text := "a" }]
      userInput := ""
      aiResponse := ""
      timer := none }
    2 Feedback.up [{ id := 1, speaker := Speaker.user, text := "q" }] []
    { id := 2, speaker := Speaker.ai, text := "a" } (by decide) (by decide) rfl rfl
  exact (h.2.2 (by decide)).trans (by decide)

/-- C6 (confirmed): `cleanup`/`stopConversation` never throw from any
resource state (so they are safe from an error callback), running them a
second time succeeds and is a no-op on the already-cleaned state, and the
resulting state has every resource released: timeout cleared, session ref
nulled, media tracks stopped and ref nulled, processor disconnected and ref
nulled, both audio contexts closed (or never created), and the active
playback source set emptied. -/
theorem C6_stop_idempotent (r : Resources) :
    ∃ r' : Resources,
      cleanup r = Except.ok r' ∧
      cleanup r' = Except.ok r' ∧
      stopConversation r = Except.ok (ConversationStatus.IDLE, r') ∧
      stopConversation r' = Except.ok (ConversationStatus.IDLE, r') ∧
      released r' := by
  refine ⟨{ timerActive := false
            sessionOpen := none
            mediaTracks := none
            procConnected := none
            inputCtx := ctxAfter r.inputCtx
            outputCtx := ctxAfter r.outputCtx
            sources := [] }, cleanup_ok r, ?_, ?_, ?_, ?_⟩
  · rw [cleanup_ok]
    simp [ctxAfter_idem]
  · rw [stopConversation, cleanup_ok r]
    rfl
  · rw [stopConversation, cleanup_ok]
    simp only [ctxAfter_idem]
    rfl
  · refine ⟨rfl, rfl, rfl, rfl, ?_, ?_, rfl⟩
    · cases hc : r.inputCtx with
      | none => left; rfl
      | some c => right; rfl
    · cases hc : r.outputCtx with
      | none => left; rfl
      | some c => right; rfl
